import Mathlib

/-
Verification of the JSI vector-index layer of expo-vector-search
(src/modules/expo-vector-search/cpp/ExpoVectorSearch.h).

f32 scalars are modelled as exact rationals; machine addresses and byte
counts are natural numbers.  The USearch index (`index_dense_t`, an external
dependency included by the header) is modelled from the specification as an
insertion-ordered association list from keys to vectors.
-/

namespace ExpoVectorSearch

/-- f32 scalar values, modelled as exact rationals. -/
abbrev F32 := Rat

/-- External keys (`default_key_t`, an unsigned 64-bit integer). -/
abbrev Key := Int

/-- The C cast `(default_key_t)x` from a signed value to the unsigned
64-bit key type: reduction modulo 2^64 into `[0, 2^64)`. -/
def castKey (i : Int) : Key := i.emod (2 ^ 64)

/-- Modelled from the spec: the USearch `index_dense_t` held by the host
object (`#include "usearch/index_dense.hpp"`, not part of src/).  Per the
spec's storage component it is a map from live external keys to fixed-length
vectors; insertion order is kept so that lookups are deterministic. -/
structure IndexState where
  dims : Nat
  entries : List (Key × List F32)
deriving DecidableEq

/-- Modelled from the spec: `read(key)` / `_index->get` — the stored vector
for a key, or `none` when the key is absent. -/
def IndexState.lookup (s : IndexState) (k : Key) : Option (List F32) :=
  (s.entries.find? (fun e => e.fst == k)).map Prod.snd

/-- Modelled from the spec: `put(key, bytes)` / `_index->add` — fails with a
duplicate error when the key already has a live slot, otherwise appends. -/
def IndexState.add (s : IndexState) (k : Key) (v : List F32) :
    Except String IndexState :=
  if (s.lookup k).isSome then .error "duplicate key"
  else .ok { s with entries := s.entries ++ [(k, v)] }

/-- Modelled from the spec: `drop(key)` / `_index->remove` — fails when the
key is absent, otherwise deletes the entry. -/
def IndexState.remove (s : IndexState) (k : Key) : Except String IndexState :=
  if (s.lookup k).isSome then
    .ok { s with entries := s.entries.filter (fun e => e.fst != k) }
  else .error "key missing"

/-- Folding `IndexState.add` over a list of items, stopping at the first
failure (used to describe the batch worker's progress). -/
def IndexState.addAll (s : IndexState) :
    List (Key × List F32) → Except String IndexState
  | [] => .ok s
  | (k, v) :: rest =>
    match s.add k v with
    | .error e => .error e
    | .ok s2 => s2.addAll rest

/-- A JS `Float32Array` view as the header reads it: the backing
`ArrayBuffer`'s data address and byte size, the view's `byteOffset` and
`byteLength`, and the f32 values readable at `addr + byteOffset`. -/
structure F32View where
  addr : Nat
  bufferSize : Nat
  byteOffset : Nat
  byteLength : Nat
  floats : List F32
deriving DecidableEq

/-- A JS `Int32Array` view of batch keys (the header reads its fields
directly, with no emptiness or alignment check). -/
structure I32View where
  addr : Nat
  bufferSize : Nat
  byteOffset : Nat
  byteLength : Nat
  ints : List Int
deriving DecidableEq

/-- `getRawVector` (ExpoVectorSearch.h:58-107): empty-buffer check, 4-byte
alignment check on `data + byteOffset`, then the float pointer together with
`byteLength / sizeof(float)`. -/
def getRawVector (v : F32View) : Except String (List F32 × Nat) :=
  if v.bufferSize = 0 then
    .error "Invalid argument: Float32Array is empty."
  else if (v.addr + v.byteOffset) % 4 ≠ 0 then
    .error "Memory Alignment Error: Float32Array buffer is not 4-byte aligned."
  else
    .ok (v.floats, v.byteLength / 4)

/-- The seven characters of the URI scheme stripped by `normalizePath`. -/
def schemeChars : List Char := "file://".toList

/-- The two-character sequence whose presence anywhere in a path makes
`normalizePath` reject it. -/
def dotdot : List Char := ['.', '.']

/-- `normalizePath` (ExpoVectorSearch.h:109-118): strip a leading `file://`,
then reject the result when it contains `..` anywhere (`std::string::find`). -/
def normalizePath (p : List Char) : Except String (List Char) :=
  let p1 := if schemeChars.isPrefixOf p then p.drop 7 else p
  if dotdot <:+: p1 then
    .error "Security violation: Path traversal is not allowed."
  else .ok p1

/-- The accumulation loop of `jaccard_f32` (ExpoVectorSearch.h:122-139):
per-position intersection and union counts, thresholding at 0.5. -/
def jaccardCounts : List F32 → List F32 → F32 × F32
  | x :: xs, y :: ys =>
    let r := jaccardCounts xs ys
    ((if 1/2 < x ∧ 1/2 < y then r.1 + 1 else r.1),
     (if 1/2 < x ∨ 1/2 < y then r.2 + 1 else r.2))
  | _, _ => (0, 0)

/-- `jaccard_f32` (ExpoVectorSearch.h:122-139): `1 − intersection/union`
over the thresholded sets, and `0.0` when the union count is zero. -/
def jaccard_f32 (a b : List F32) : F32 :=
  let r := jaccardCounts a b
  if r.2 = 0 then 0 else 1 - r.1 / r.2

/-- The metric kinds selectable through `createIndex`. -/
inductive MetricKind where
  | cos | l2sq | ip | hamming | jaccard
deriving DecidableEq

/-- The `options` object accepted by `createIndex`. -/
structure CreateOptions where
  quantization : Option String
  metric : Option String
deriving DecidableEq

/-- The construction parameters `createIndex` hands to the host object. -/
structure IndexConfig where
  dims : Int
  quantized : Bool
  metric : MetricKind
deriving DecidableEq

/-- `createIndex` (ExpoVectorSearch.h:726-764): `quantization == "i8"`
selects i8, anything else f32; the four recognised metric strings select
their metric, anything else cosine; `dimensions` is cast to int and passed
through unvalidated. -/
def createIndex (dims : Int) (opts : Option CreateOptions) :
    Except String IndexConfig :=
  let quantized :=
    match opts with
    | some o =>
      match o.quantization with
      | some q => q == "i8"
      | none => false
    | none => false
  let metric :=
    match opts with
    | some o =>
      match o.metric with
      | some m =>
        if m == "l2sq" then MetricKind.l2sq
        else if m == "ip" then MetricKind.ip
        else if m == "hamming" then MetricKind.hamming
        else if m == "jaccard" then MetricKind.jaccard
        else MetricKind.cos
      | none => MetricKind.cos
    | none => MetricKind.cos
  .ok { dims := dims, quantized := quantized, metric := metric }

/-- `OperationResult` (ExpoVectorSearch.h:141-145).  Wall-clock durations are
not modelled; the field is kept and written as `0`. -/
structure OperationResult where
  duration : F32
  count : Nat
  error : String
deriving DecidableEq

/-- The mutable fields of `VectorIndexHostObject` (ExpoVectorSearch.h:711-718):
`_index` (reset to `none` by `delete`), `_isIndexing`,
`_currentIndexingCount`, `_totalIndexingCount`, `_quantized`, `_lastResult`. -/
structure HostState where
  index : Option IndexState
  isIndexing : Bool
  currentCount : Nat
  totalCount : Nat
  quantized : Bool
  lastResult : OperationResult
deriving DecidableEq

/-- How a JSI call ends: a returned value, a thrown `jsi::JSError`, or a
dereference of the reset `_index` shared pointer (undefined behavior in the
source — distinct from throwing an error). -/
inductive Outcome (α : Type) where
  | value : α → Outcome α
  | jsError : String → Outcome α
  | nullDeref : Outcome α
deriving DecidableEq

/-- The deleted-state error message thrown by the guarded operations. -/
def deletedMsg : String := "VectorIndex has been deleted."

/-- The busy error message thrown by `addBatch` and `loadVectorsFromFile`. -/
def busyMsg : String := "Index is already busy."

/-- `delete` (ExpoVectorSearch.h:261-270): resets the index shared pointer. -/
def hostDelete (st : HostState) : HostState := { st with index := none }

/-- The `dimensions` property (ExpoVectorSearch.h:196-199): no null check —
after `delete` the getter dereferences the reset pointer. -/
def getDimensionsProp (st : HostState) : Outcome Nat :=
  match st.index with
  | none => .nullDeref
  | some idx => .value idx.dims

/-- The `count` property (ExpoVectorSearch.h:200-204): returns `0`, not an
error, when the index has been deleted. -/
def getCountProp (st : HostState) : Outcome Nat :=
  match st.index with
  | none => .value 0
  | some idx => .value idx.entries.length

/-- The `memoryUsage` property (ExpoVectorSearch.h:205-224): returns `0`
when deleted, otherwise the documented estimate. -/
def getMemoryUsageProp (st : HostState) : Outcome Nat :=
  match st.index with
  | none => .value 0
  | some idx =>
    let count := idx.entries.length
    .value (count * idx.dims * (if st.quantized then 1 else 4) +
              count * (64 + 32 * 4) + 1024 * 1024)

/-- The `isa` property (ExpoVectorSearch.h:225-229): the SIMD variant name
reported by the metric (a runtime fact, passed in as a parameter), or the
string `"unknown"` when the index has been deleted. -/
def getIsaProp (st : HostState) (isaName : String) : Outcome String :=
  match st.index with
  | none => .value "unknown"
  | some _ => .value isaName

/-- `add` (ExpoVectorSearch.h:272-319): raw-vector extraction, deleted-state
check, dimension check, then `_index->add`; returns `{duration}`. -/
def hostAdd (st : HostState) (k : Key) (v : F32View) :
    Outcome F32 × HostState :=
  match getRawVector v with
  | .error e => (.jsError e, st)
  | .ok (vecData, vecSize) =>
    match st.index with
    | none => (.jsError deletedMsg, st)
    | some idx =>
      if vecSize ≠ idx.dims then (.jsError "Incorrect dimension.", st)
      else
        match idx.add k (vecData.take idx.dims) with
        | .error e => (.jsError ("Error adding: " ++ e), st)
        | .ok idx2 => (.value 0, { st with index := some idx2 })

/-- `remove` (ExpoVectorSearch.h:417-441). -/
def hostRemove (st : HostState) (k : Key) : Outcome Unit × HostState :=
  match st.index with
  | none => (.jsError deletedMsg, st)
  | some idx =>
    match idx.remove k with
    | .error e => (.jsError ("Error removing: " ++ e), st)
    | .ok idx2 => (.value (), { st with index := some idx2 })

/-- `update` (ExpoVectorSearch.h:443-478): like `add`, but first calls
`_index->remove(key)` with the result ignored, so an absent key is upserted. -/
def hostUpdate (st : HostState) (k : Key) (v : F32View) :
    Outcome Unit × HostState :=
  match getRawVector v with
  | .error e => (.jsError e, st)
  | .ok (vecData, vecSize) =>
    match st.index with
    | none => (.jsError deletedMsg, st)
    | some idx =>
      if vecSize ≠ idx.dims then
        (.jsError "Incorrect dimension for update.", st)
      else
        let idx1 := match idx.remove k with | .ok j => j | .error _ => idx
        match idx1.add k (vecData.take idx.dims) with
        | .error e => (.jsError ("Error updating: " ++ e), st)
        | .ok idx2 => (.value (), { st with index := some idx2 })

/-- `search` (ExpoVectorSearch.h:480-550): validation pipeline only.  The
ANN result list is computed by the external USearch graph and is not
modelled; what is modelled is that every error precedes any state change and
that the search itself does not mutate the index. -/
def hostSearch (st : HostState) (q : F32View) : Outcome Unit × HostState :=
  match getRawVector q with
  | .error e => (.jsError e, st)
  | .ok (_, querySize) =>
    match st.index with
    | none => (.jsError deletedMsg, st)
    | some idx =>
      if querySize ≠ idx.dims then
        (.jsError "Query vector dimension mismatch.", st)
      else (.value (), st)

/-- `getItemVector` (ExpoVectorSearch.h:552-593): a defensive copy of the
stored vector, or `undefined` (here `none`) when the key is absent. -/
def hostGetItemVector (st : HostState) (k : Key) :
    Outcome (Option (List F32)) × HostState :=
  match st.index with
  | none => (.jsError deletedMsg, st)
  | some idx => (.value (idx.lookup k), st)

/-- `save` (ExpoVectorSearch.h:595-612): path sanitization, deleted-state
check, then `_index->save`; `ioOk` stands for the success of the external
file-system write.  There is no busy gate. -/
def hostSave (st : HostState) (path : List Char) (ioOk : Bool) :
    Outcome Unit × HostState :=
  match normalizePath path with
  | .error e => (.jsError e, st)
  | .ok p =>
    match st.index with
    | none => (.jsError deletedMsg, st)
    | some _ =>
      if ioOk then (.value (), st)
      else (.jsError ("Critical error saving index to disk: " ++ String.mk p), st)

/-- `load` (ExpoVectorSearch.h:689-706): path sanitization, deleted-state
check, then `_index->load`; `loaded` is the index contents the external read
produces (`none` when the read fails).  There is no busy gate. -/
def hostLoad (st : HostState) (path : List Char) (loaded : Option IndexState) :
    Outcome Unit × HostState :=
  match normalizePath path with
  | .error e => (.jsError e, st)
  | .ok p =>
    match st.index with
    | none => (.jsError deletedMsg, st)
    | some _ =>
      match loaded with
      | none =>
        (.jsError ("Critical error loading index from disk: " ++ String.mk p), st)
      | some newIdx => (.value (), { st with index := some newIdx })

/-- The inputs copied for the `addBatch` background thread
(ExpoVectorSearch.h:369-380): the first `batchCount` keys (cast to
`default_key_t`) and the first `batchCount * dims` floats. -/
structure BatchTask where
  keys : List Key
  vectors : List F32
  batchCount : Nat
  dims : Nat
deriving DecidableEq

/-- The synchronous part of `addBatch` (ExpoVectorSearch.h:321-376), in
source order: deleted-state check, busy check, `keysCount = byteLength / 4`
from the keys view (no alignment or emptiness check on it), `getRawVector`
on the vectors view, `batchCount = totalElements / dims` by integer
division, the mismatch check `batchCount != keysCount`, then the copy of the
inputs and the transition to the indexing state.  Returns the spawned task
when one is started. -/
def hostAddBatchSync (st : HostState) (kv : I32View) (vv : F32View) :
    Outcome Unit × HostState × Option BatchTask :=
  match st.index with
  | none => (.jsError deletedMsg, st, none)
  | some idx =>
    if st.isIndexing then (.jsError busyMsg, st, none)
    else
      let keysCount := kv.byteLength / 4
      match getRawVector vv with
      | .error e => (.jsError e, st, none)
      | .ok (vecData, vecTotalElements) =>
        let dims := idx.dims
        let batchCount := vecTotalElements / dims
        if batchCount ≠ keysCount then
          (.jsError "Batch mismatch: keys and vectors must have compatible sizes.",
           st, none)
        else
          (.value (),
           { st with isIndexing := true, currentCount := 0,
                     totalCount := batchCount },
           some { keys := (kv.ints.take batchCount).map castKey,
                  vectors := vecData.take (batchCount * dims),
                  batchCount := batchCount, dims := dims })

/-- The `addBatch` worker loop (ExpoVectorSearch.h:378-411).  `i` is the
loop counter, `remaining` the keys not yet processed.  On an add failure the
loop records `"Error adding at index i"` in `lastResult.error`, clears
`isIndexing` and returns — the already-inserted items stay, and
`lastResult.duration`/`count` are left untouched.  When the loop finishes
(or breaks because the index was deleted) the epilogue records a successful
`lastResult` and clears `isIndexing`. -/
def batchWorkerGo (t : BatchTask) : HostState → Nat → List Key → HostState
  | st, _, [] =>
    { st with
      lastResult := { duration := 0, count := t.batchCount, error := "" },
      isIndexing := false }
  | st, i, k :: rest =>
    match st.index with
    | none =>
      { st with
        lastResult := { duration := 0, count := t.batchCount, error := "" },
        isIndexing := false }
    | some idx =>
      match idx.add k ((t.vectors.drop (i * t.dims)).take t.dims) with
      | .error _ =>
        { st with
          lastResult := { st.lastResult with
                            error := "Error adding at index " ++ toString i },
          isIndexing := false }
      | .ok idx2 =>
        batchWorkerGo t
          { st with index := some idx2, currentCount := st.currentCount + 1 }
          (i + 1) rest

/-- The whole `addBatch` worker, started at loop index 0. -/
def batchWorker (t : BatchTask) (st : HostState) : HostState :=
  batchWorkerGo t st 0 t.keys

/-- `addBatch` with its worker run to completion (the embedding is
sequential; interleavings with other calls are outside it). -/
def runAddBatch (st : HostState) (kv : I32View) (vv : F32View) :
    Outcome Unit × HostState :=
  match hostAddBatchSync st kv vv with
  | (out, st2, none) => (out, st2)
  | (out, st2, some t) => (out, batchWorker t st2)

/-- The `(key, vector)` items the `addBatch` worker inserts, starting from
loop index `i`: each key is paired with its `dims`-wide slice of the copied
vector buffer. -/
def tItems (t : BatchTask) : Nat → List Key → List (Key × List F32)
  | _, [] => []
  | i, k :: rest =>
    (k, (t.vectors.drop (i * t.dims)).take t.dims) :: tItems t (i + 1) rest

/-- All items of a batch, in insertion order. -/
def BatchTask.items (t : BatchTask) : List (Key × List F32) :=
  tItems t 0 t.keys

/-- A raw vector file: its byte size (`tellg`) and the f32 values its bytes
decode to (little-endian). -/
structure FileData where
  byteSize : Nat
  floats : List F32
deriving DecidableEq

/-- What the `loadVectorsFromFile` background thread captures
(ExpoVectorSearch.h:643): the normalized path, `numVectors` and `dims`. -/
structure LoadTask where
  path : List Char
  numVectors : Nat
  dims : Nat
deriving DecidableEq

/-- The synchronous part of `loadVectorsFromFile`
(ExpoVectorSearch.h:614-641), in source order: busy check (before path
sanitization), `normalizePath`, file open (`file` is `none` when the open
fails), silent success on `size <= 0`, then — with no null check —
`_index->dimensions()` (undefined behavior after `delete`),
`numVectors = size / (dims * 4)` by integer division with no divisibility
check, and the transition to the indexing state. -/
def hostLoadVectorsSync (st : HostState) (path : List Char)
    (file : Option FileData) : Outcome Unit × HostState × Option LoadTask :=
  if st.isIndexing then (.jsError busyMsg, st, none)
  else
    match normalizePath path with
    | .error e => (.jsError e, st, none)
    | .ok p =>
      match file with
      | none => (.jsError ("Could not open file: " ++ String.mk p), st, none)
      | some f =>
        if f.byteSize = 0 then (.value (), st, none)
        else
          match st.index with
          | none => (.nullDeref, st, none)
          | some idx =>
            let numVectors := f.byteSize / (idx.dims * 4)
            (.value (),
             { st with isIndexing := true, currentCount := 0,
                       totalCount := numVectors },
             some { path := p, numVectors := numVectors, dims := idx.dims })

/-- The insertion loop of the `loadVectorsFromFile` worker
(ExpoVectorSearch.h:662-677): for each `i` it calls `_index->add(i, ...)`
with the result ignored and increments the progress counter; the epilogue
records a successful `lastResult` and clears `isIndexing`. -/
def loadWorkerGo (d total : Nat) (vecData : List F32) :
    HostState → Nat → Nat → HostState
  | st, _, 0 =>
    { st with
      lastResult := { duration := 0, count := total, error := "" },
      isIndexing := false }
  | st, i, fuel + 1 =>
    match st.index with
    | none => st
    | some idx =>
      let st2 :=
        match idx.add (Int.ofNat i) ((vecData.drop (i * d)).take d) with
        | .ok idx2 => { st with index := some idx2 }
        | .error _ => st
      loadWorkerGo d total vecData
        { st2 with currentCount := st2.currentCount + 1 } (i + 1) fuel

/-- The whole `loadVectorsFromFile` worker (ExpoVectorSearch.h:643-683):
re-reads the file (modelled as the same `FileData`), returns early —
leaving `isIndexing` set — when the index was deleted before the loop, and
otherwise runs the insertion loop over `numVectors` items. -/
def loadWorker (t : LoadTask) (f : FileData) (st : HostState) : HostState :=
  let vecData := f.floats.take (t.numVectors * t.dims)
  match st.index with
  | none => st
  | some _ => loadWorkerGo t.dims t.numVectors vecData st 0 t.numVectors

/-- The items the `loadVectorsFromFile` worker inserts for loop indices
`i, i+1, ..., i+fuel-1`: key `j` paired with the `j`-th `d`-wide slice of
the float data. -/
def loadChunks (vecData : List F32) (d i fuel : Nat) : List (Key × List F32) :=
  (List.range fuel).map (fun r =>
    (Int.ofNat (i + r), (vecData.drop ((i + r) * d)).take d))

/-- `loadVectorsFromFile` with its worker run to completion. -/
def runLoadVectorsFromFile (st : HostState) (path : List Char)
    (file : Option FileData) : Outcome Unit × HostState :=
  match hostLoadVectorsSync st path file with
  | (out, st2, none) => (out, st2)
  | (out, st2, some t) =>
    match file with
    | none => (out, st2)
    | some f => (out, loadWorker t f st2)

/-! Concrete values used by the counterexamples and witnesses below. -/

/-- An empty 4-dimensional index. -/
def exIdx4 : IndexState := { dims := 4, entries := [] }

/-- An empty 1-dimensional index. -/
def exIdx1 : IndexState := { dims := 1, entries := [] }

/-- A 1-dimensional index already holding key 5. -/
def exIdx1Five : IndexState := { dims := 1, entries := [(5, [1])] }

/-- A freshly constructed host state over `exIdx4`. -/
def exLive4 : HostState :=
  { index := some exIdx4, isIndexing := false, currentCount := 0,
    totalCount := 0, quantized := false,
    lastResult := { duration := 0, count := 0, error := "" } }

/-- A freshly constructed host state over `exIdx1`. -/
def exLive1 : HostState :=
  { index := some exIdx1, isIndexing := false, currentCount := 0,
    totalCount := 0, quantized := false,
    lastResult := { duration := 0, count := 0, error := "" } }

/-- `exLive4` with a background operation in flight. -/
def exBusy4 : HostState := { exLive4 with isIndexing := true }

/-- The path `"tmp"`. -/
def exPath : List Char := ['t', 'm', 'p']

/-- A one-key `Int32Array` view (key 7). -/
def exKeys1 : I32View :=
  { addr := 0, bufferSize := 4, byteOffset := 0, byteLength := 4, ints := [7] }

/-- A two-key `Int32Array` view (keys 7 and 8). -/
def exKeys2 : I32View :=
  { addr := 0, bufferSize := 8, byteOffset := 0, byteLength := 8, ints := [7, 8] }

/-- An aligned five-float view: 20 bytes, one element more than `4 × D` for
a 4-dimensional index. -/
def exVec5 : F32View :=
  { addr := 0, bufferSize := 20, byteOffset := 0, byteLength := 20,
    floats := [1, 2, 3, 4, 5] }

/-- An aligned four-float view. -/
def exVec4 : F32View :=
  { addr := 0, bufferSize := 16, byteOffset := 0, byteLength := 16,
    floats := [1, 2, 3, 4] }

/-- A misaligned four-float view (data address 1). -/
def exVecBad : F32View :=
  { addr := 1, bufferSize := 16, byteOffset := 0, byteLength := 16,
    floats := [1, 2, 3, 4] }

/-- A 6-byte raw vector file: not a multiple of `D × 4` for any `D`. -/
def exFile6 : FileData := { byteSize := 6, floats := [3] }

/-- A two-item batch whose second key duplicates its first. -/
def exBatchDup : BatchTask :=
  { keys := [5, 5], vectors := [1, 2], batchCount := 2, dims := 1 }

/-! Theorems. -/

/-- The two-dot pattern is never a prefix of a list headed by a non-dot. -/
theorem dotdot_not_prefix_cons {c : Char} {l : List Char} (hc : c ≠ '.') :
    ¬ dotdot <+: c :: l := by
  intro h
  rw [dotdot] at h
  exact hc (List.cons_prefix_cons.mp h).1.symm

/-- A `..` occurrence survives dropping a dot-free prefix. -/
theorem dotdot_infix_of_append {rest : List Char} :
    ∀ pre : List Char, (∀ c ∈ pre, c ≠ '.') →
      dotdot <:+: (pre ++ rest) → dotdot <:+: rest := by
  intro pre
  induction pre with
  | nil => intro _ h; simpa using h
  | cons c cs ih =>
    intro hcl h
    rw [List.cons_append] at h
    rcases List.infix_cons_iff.mp h with h1 | h2
    · exact absurd h1 (dotdot_not_prefix_cons (hcl c (by simp)))
    · exact ih (fun d hd => hcl d (by simp [hd])) h2

/-- C8: every path with a leading `file://` has it stripped; any path
containing `..` (in particular any path containing a `..` segment) is
rejected with the security error before the stripped path is returned for
filesystem use; dot-dot-free paths pass through. -/
theorem C8_normalizePath (p : List Char) :
    (dotdot <:+: p →
        normalizePath p =
          .error "Security violation: Path traversal is not allowed.") ∧
    (schemeChars.isPrefixOf p = true → ¬ dotdot <:+: p.drop 7 →
        normalizePath p = .ok (p.drop 7)) ∧
    (schemeChars.isPrefixOf p = false → ¬ dotdot <:+: p →
        normalizePath p = .ok p) := by
  refine ⟨?_, ?_, ?_⟩
  · intro hin
    by_cases hpre : schemeChars.isPrefixOf p
    · obtain ⟨t, ht⟩ := List.isPrefixOf_iff_prefix.mp hpre
      have hlen : schemeChars.length = 7 := rfl
      have hdrop : p.drop 7 = t := by
        rw [← ht, ← hlen, List.drop_left]
      have hin2 : dotdot <:+: p.drop 7 := by
        rw [hdrop]
        refine dotdot_infix_of_append schemeChars (by decide) ?_
        rw [ht]; exact hin
      simp [normalizePath, hpre, hin2]
    · simp [normalizePath, hpre, hin]
  · intro hpre hnin
    simp [normalizePath, hpre, hnin]
  · intro hpre hnin
    simp [normalizePath, hpre, hnin]

/-- C8 witness: `file://a/../b` contains `..` and is rejected. -/
theorem C8_normalizePath_witness :
    dotdot <:+: "file://a/../b".toList ∧
    normalizePath "file://a/../b".toList =
      .error "Security violation: Path traversal is not allowed." :=
  ⟨by decide, (C8_normalizePath "file://a/../b".toList).1 (by decide)⟩

/-- C4 counterexample: an unknown quantization string, an unknown metric
string and `dimensions == 0` together produce no config error — the factory
returns a fresh f32/cosine index of dimension 0. -/
theorem C4_counterexample :
    createIndex 0 (some { quantization := some "f16", metric := some "dot" }) =
      .ok { dims := 0, quantized := false, metric := MetricKind.cos } := rfl

/-- C4 amended: `createIndex` never fails with a config error — a
quantization string other than `"i8"` silently selects f32, a metric string
outside the four recognised ones silently selects cosine, and any
dimension value (including 0) is passed through unvalidated. -/
theorem C4_amended (dims : Int) (q m : String) (hq : q ≠ "i8")
    (hm1 : m ≠ "l2sq") (hm2 : m ≠ "ip") (hm3 : m ≠ "hamming")
    (hm4 : m ≠ "jaccard") :
    createIndex dims (some { quantization := some q, metric := some m }) =
      .ok { dims := dims, quantized := false, metric := MetricKind.cos } := by
  have h1 : (q == "i8") = false := by simp [hq]
  have h2 : (m == "l2sq") = false := by simp [hm1]
  have h3 : (m == "ip") = false := by simp [hm2]
  have h4 : (m == "hamming") = false := by simp [hm3]
  have h5 : (m == "jaccard") = false := by simp [hm4]
  simp [createIndex, h1, h2, h3, h4, h5]

/-- C4 amended witness: quantization `"f16"`, metric `"dot"`, dimension 0. -/
theorem C4_amended_witness :
    ("f16" : String) ≠ "i8" ∧
    createIndex 0 (some { quantization := some "f16", metric := some "dot" }) =
      .ok { dims := 0, quantized := false, metric := MetricKind.cos } :=
  ⟨by decide,
   C4_amended 0 "f16" "dot" (by decide) (by decide) (by decide) (by decide)
     (by decide)⟩

/-- C1 counterexample: after `delete()` the `count` and `isa` properties do
not fail with a deleted-state error — `count` returns the value `0` and
`isa` returns the string `"unknown"`. -/
theorem C1_counterexample :
    getCountProp (hostDelete exLive4) = .value 0 ∧
    getIsaProp (hostDelete exLive4) "neon" = .value "unknown" :=
  ⟨rfl, rfl⟩

/-- C1 amended: after `delete()`, the operations `add`, `addBatch`,
`remove`, `update`, `search`, `getItemVector`, `save` and `load` fail with
the deleted-state error (given arguments that pass the earlier buffer/path
gates); but `count` and `memoryUsage` return `0`, `isa` returns
`"unknown"`, the `dimensions` getter dereferences the destroyed index
(undefined behavior, not an error), and `loadVectorsFromFile` on a
non-empty file likewise dereferences the destroyed index. -/
theorem C1_amended (st : HostState) (h : st.index = none)
    (hni : st.isIndexing = false)
    (k : Key) (v : F32View) (vr : List F32 × Nat) (hv : getRawVector v = .ok vr)
    (kv : I32View) (path : List Char) (pq : List Char)
    (hp : normalizePath path = .ok pq)
    (io : Bool) (ld : Option IndexState) (f : FileData) (hf : f.byteSize ≠ 0)
    (isaName : String) :
    hostAdd st k v = (.jsError deletedMsg, st) ∧
    hostAddBatchSync st kv v = (.jsError deletedMsg, st, none) ∧
    hostRemove st k = (.jsError deletedMsg, st) ∧
    hostUpdate st k v = (.jsError deletedMsg, st) ∧
    hostSearch st v = (.jsError deletedMsg, st) ∧
    hostGetItemVector st k = (.jsError deletedMsg, st) ∧
    hostSave st path io = (.jsError deletedMsg, st) ∧
    hostLoad st path ld = (.jsError deletedMsg, st) ∧
    hostLoadVectorsSync st path (some f) = (.nullDeref, st, none) ∧
    getDimensionsProp st = .nullDeref ∧
    getCountProp st = .value 0 ∧
    getMemoryUsageProp st = .value 0 ∧
    getIsaProp st isaName = .value "unknown" := by
  obtain ⟨vd, vs⟩ := vr
  refine ⟨?_, ?_, ?_, ?_, ?_, ?_, ?_, ?_, ?_, ?_, ?_, ?_, ?_⟩
  · simp [hostAdd, hv, h]
  · simp [hostAddBatchSync, h]
  · simp [hostRemove, h]
  · simp [hostUpdate, hv, h]
  · simp [hostSearch, hv, h]
  · simp [hostGetItemVector, h]
  · simp [hostSave, hp, h]
  · simp [hostLoad, hp, h]
  · simp [hostLoadVectorsSync, hni, hp, hf, h]
  · simp [getDimensionsProp, h]
  · simp [getCountProp, h]
  · simp [getMemoryUsageProp, h]
  · simp [getIsaProp, h]

/-- C1 amended witness: a deleted state with well-formed arguments. -/
theorem C1_amended_witness :
    (hostDelete exLive4).index = none ∧
    hostAdd (hostDelete exLive4) 1 exVec4 =
      (.jsError deletedMsg, hostDelete exLive4) ∧
    getCountProp (hostDelete exLive4) = .value 0 :=
  ⟨rfl,
   (C1_amended (hostDelete exLive4) rfl rfl 1 exVec4 ([1, 2, 3, 4], 4) rfl
      exKeys1 exPath exPath rfl true (some exIdx1) exFile6 (by decide)
      "neon").1,
   (C1_amended (hostDelete exLive4) rfl rfl 1 exVec4 ([1, 2, 3, 4], 4) rfl
      exKeys1 exPath exPath rfl true (some exIdx1) exFile6 (by decide)
      "neon").2.2.2.2.2.2.2.2.2.2.1⟩

/-- C2 counterexample: with a background operation in flight, `save` does
not fail with the busy error — it proceeds and succeeds. -/
theorem C2_counterexample :
    exBusy4.isIndexing = true ∧
    hostSave exBusy4 exPath true = (.value (), exBusy4) :=
  ⟨rfl, by simp [hostSave, exBusy4, exLive4, show normalizePath exPath = .ok exPath from rfl, exIdx4]⟩

/-- C2 amended: while a background operation is in flight, `addBatch` and
`loadVectorsFromFile` fail with the busy error and leave the whole state
unchanged; these two are the only busy-gated operations — `save` and
`load` (contrary to the claim) as well as `search` and `getItemVector`
proceed normally despite the running background task. -/
theorem C2_amended (st : HostState) (idx : IndexState) (hidx : st.index = some idx)
    (hbusy : st.isIndexing = true)
    (kv : I32View) (vv : F32View) (path : List Char) (pq : List Char)
    (hp : normalizePath path = .ok pq) (file : Option FileData)
    (idx2 : IndexState) (k : Key)
    (hvne : vv.bufferSize ≠ 0) (hval : (vv.addr + vv.byteOffset) % 4 = 0)
    (hdim : vv.byteLength / 4 = idx.dims) :
    hostAddBatchSync st kv vv = (.jsError busyMsg, st, none) ∧
    hostLoadVectorsSync st path file = (.jsError busyMsg, st, none) ∧
    hostSave st path true = (.value (), st) ∧
    hostLoad st path (some idx2) = (.value (), { st with index := some idx2 }) ∧
    hostSearch st vv = (.value (), st) ∧
    hostGetItemVector st k = (.value (idx.lookup k), st) := by
  refine ⟨?_, ?_, ?_, ?_, ?_, ?_⟩
  · simp only [hostAddBatchSync, hidx, hbusy, if_true]
  · simp [hostLoadVectorsSync, hbusy]
  · simp [hostSave, hp, hidx]
  · simp [hostLoad, hp, hidx]
  · simp [hostSearch, getRawVector, hvne, hval, hidx, hdim]
  · simp [hostGetItemVector, hidx]

/-- C2 amended witness: a busy state over a live index. -/
theorem C2_amended_witness :
    exBusy4.index = some exIdx4 ∧
    hostAddBatchSync exBusy4 exKeys1 exVec4 = (.jsError busyMsg, exBusy4, none) ∧
    hostSave exBusy4 exPath true = (.value (), exBusy4) :=
  ⟨rfl,
   (C2_amended exBusy4 exIdx4 rfl rfl exKeys1 exVec4 exPath exPath rfl
      (some exFile6) exIdx1 1 (by decide) (by decide) rfl).1,
   (C2_amended exBusy4 exIdx4 rfl rfl exKeys1 exVec4 exPath exPath rfl
      (some exFile6) exIdx1 1 (by decide) (by decide) rfl).2.2.1⟩

/-- C9: handing a misaligned (and non-empty) `Float32Array` to `add`,
`update`, `search` or `addBatch` raises the buffer alignment error and
leaves the whole host state — index included — unchanged. -/
theorem C9_alignment (st : HostState) (idx : IndexState)
    (hidx : st.index = some idx) (hni : st.isIndexing = false)
    (k : Key) (kv : I32View) (v : F32View)
    (hmis : (v.addr + v.byteOffset) % 4 ≠ 0) (hne : v.bufferSize ≠ 0) :
    hostAdd st k v =
      (.jsError "Memory Alignment Error: Float32Array buffer is not 4-byte aligned.", st) ∧
    hostUpdate st k v =
      (.jsError "Memory Alignment Error: Float32Array buffer is not 4-byte aligned.", st) ∧
    hostSearch st v =
      (.jsError "Memory Alignment Error: Float32Array buffer is not 4-byte aligned.", st) ∧
    runAddBatch st kv v =
      (.jsError "Memory Alignment Error: Float32Array buffer is not 4-byte aligned.", st) := by
  have hraw : getRawVector v =
      .error "Memory Alignment Error: Float32Array buffer is not 4-byte aligned." := by
    simp [getRawVector, hne, hmis]
  refine ⟨?_, ?_, ?_, ?_⟩
  · simp [hostAdd, hraw]
  · simp [hostUpdate, hraw]
  · simp [hostSearch, hraw]
  · simp [runAddBatch, hostAddBatchSync, hidx, hni, hraw]

/-- C9 witness: a four-float view at data address 1. -/
theorem C9_alignment_witness :
    (exVecBad.addr + exVecBad.byteOffset) % 4 ≠ 0 ∧
    hostAdd exLive4 1 exVecBad =
      (.jsError "Memory Alignment Error: Float32Array buffer is not 4-byte aligned.", exLive4) :=
  ⟨by decide,
   (C9_alignment exLive4 exIdx4 rfl rfl 1 exKeys1 exVecBad (by decide)
      (by decide)).1⟩

/-- C3 counterexample: one key, five floats, a 4-dimensional index — so
`keys.len * D = 4 ≠ 5 = vectors.len` — yet `addBatch` raises no error and
inserts one vector built from the first four floats, silently dropping the
fifth. -/
theorem C3_counterexample :
    1 * 4 ≠ 5 ∧
    runAddBatch exLive4 exKeys1 exVec5 =
      (.value (),
       { index := some { dims := 4, entries := [(7, [1, 2, 3, 4])] },
         isIndexing := false, currentCount := 1, totalCount := 1,
         quantized := false,
         lastResult := { duration := 0, count := 1, error := "" } }) := by
  exact ⟨by decide, rfl⟩

/-- C3 amended: `addBatch` compares `⌊vectors.len / D⌋` — not
`vectors.len / D` exactly — with `keys.len`: it fails with the batch
mismatch (buffer) error, leaving the state unchanged so that no vector is
inserted, precisely when `⌊vectors.len / D⌋ ≠ keys.len`; when the floors
agree, up to `D − 1` trailing elements are silently ignored and the batch
proceeds. -/
theorem C3_amended (st : HostState) (idx : IndexState)
    (hidx : st.index = some idx) (hni : st.isIndexing = false)
    (kv : I32View) (vv : F32View) (vecData : List F32) (lTotal : Nat)
    (hv : getRawVector vv = .ok (vecData, lTotal)) :
    runAddBatch st kv vv =
        (.jsError "Batch mismatch: keys and vectors must have compatible sizes.", st)
      ↔ lTotal / idx.dims ≠ kv.byteLength / 4 := by
  by_cases hc : lTotal / idx.dims = kv.byteLength / 4
  · simp only [runAddBatch, hostAddBatchSync, hidx, hni, hv]
    simp [hc]
  · simp only [runAddBatch, hostAddBatchSync, hidx, hni, hv]
    simp [hc]

/-- C3 amended witness: two keys against four floats in a 4-dimensional
index — the floors disagree, so the mismatch error is raised with the
state unchanged. -/
theorem C3_amended_witness :
    getRawVector exVec4 = .ok ([1, 2, 3, 4], 4) ∧
    runAddBatch exLive4 exKeys2 exVec4 =
      (.jsError "Batch mismatch: keys and vectors must have compatible sizes.",
       exLive4) :=
  ⟨rfl,
   (C3_amended exLive4 exIdx4 rfl rfl exKeys2 exVec4 [1, 2, 3, 4] 4 rfl).mpr
     (by decide)⟩

/-- After the update's unconditional `remove(k)` (result ignored), `k` is
absent whether or not it was present before. -/
theorem lookup_forceRemove (idx : IndexState) (k : Key) :
    (match idx.remove k with | .ok j => j | .error _ => idx).lookup k = none := by
  unfold IndexState.remove
  by_cases h : (idx.lookup k).isSome
  · simp only [h, if_true]
    unfold IndexState.lookup
    rw [Option.map_eq_none', List.find?_eq_none]
    intro e he
    have h2 := (List.mem_filter.mp he).2
    simp only [bne_iff_ne, ne_eq] at h2
    simp [h2]
  · simp only [h, if_false]
    exact Option.not_isSome_iff_eq_none.mp h

/-- A successful `add` makes the added key map to the added vector. -/
theorem lookup_add_self (idx : IndexState) (k : Key) (v : List F32)
    (idx2 : IndexState) (h : idx.add k v = .ok idx2) :
    idx2.lookup k = some v := by
  unfold IndexState.add at h
  by_cases hs : (idx.lookup k).isSome
  · simp [hs] at h
  · simp only [hs, Bool.false_eq_true, if_false, Except.ok.injEq] at h
    subst h
    have hn : idx.entries.find? (fun e => e.fst == k) = none :=
      Option.map_eq_none'.mp (Option.not_isSome_iff_eq_none.mp hs)
    unfold IndexState.lookup
    simp [List.find?_append, hn, List.find?]

/-- A successful `add` of a fresh key preserves every existing binding. -/
theorem lookup_add_pres (idx : IndexState) (k' : Key) (v' : List F32)
    (idx2 : IndexState) (h : idx.add k' v' = .ok idx2)
    (k : Key) (v : List F32) (hl : idx.lookup k = some v) :
    idx2.lookup k = some v := by
  unfold IndexState.add at h
  by_cases hs : (idx.lookup k').isSome
  · simp [hs] at h
  · simp only [hs, Bool.false_eq_true, if_false, Except.ok.injEq] at h
    subst h
    obtain ⟨e, he, hev⟩ := Option.map_eq_some'.mp hl
    unfold IndexState.lookup
    simp [List.find?_append, he, hev]

/-- A successful `addAll` preserves every pre-existing binding. -/
theorem addAll_pres (items : List (Key × List F32)) :
    ∀ (idx idx2 : IndexState), idx.addAll items = .ok idx2 →
      ∀ (k : Key) (v : List F32), idx.lookup k = some v →
        idx2.lookup k = some v := by
  induction items with
  | nil => intro idx idx2 h k v hl; cases h; exact hl
  | cons it rest ih =>
    intro idx idx2 h k v hl
    obtain ⟨ki, vi⟩ := it
    unfold IndexState.addAll at h
    cases hadd : idx.add ki vi with
    | error e => rw [hadd] at h; cases h
    | ok idxm =>
      rw [hadd] at h
      exact ih idxm idx2 h k v (lookup_add_pres idx ki vi idxm hadd k v hl)

/-- After a successful `addAll`, every inserted item is present with its
vector. -/
theorem addAll_lookup (items : List (Key × List F32)) :
    ∀ (idx idx2 : IndexState), idx.addAll items = .ok idx2 →
      ∀ p ∈ items, idx2.lookup p.1 = some p.2 := by
  induction items with
  | nil => intro idx idx2 _ p hp; cases hp
  | cons it rest ih =>
    intro idx idx2 h p hp
    obtain ⟨ki, vi⟩ := it
    unfold IndexState.addAll at h
    cases hadd : idx.add ki vi with
    | error e => rw [hadd] at h; cases h
    | ok idxm =>
      rw [hadd] at h
      rcases List.mem_cons.mp hp with rfl | hmem
      · exact addAll_pres rest idxm idx2 h ki vi
          (lookup_add_self idx ki vi idxm hadd)
      · exact ih idxm idx2 h p hmem

/-- C6: `update(k, v)` with a `D`-element vector succeeds whether or not
`k` is present (an unknown key is upserted), and a subsequent
`getItemVector(k)` returns exactly the stored vector `v` (f32 storage is
modelled exactly, so the quantization tolerance is 0). -/
theorem C6_update_get (st : HostState) (idx : IndexState)
    (hidx : st.index = some idx) (k : Key) (v : F32View)
    (hne : v.bufferSize ≠ 0) (hal : (v.addr + v.byteOffset) % 4 = 0)
    (hlen : v.byteLength / 4 = idx.dims) (hfl : v.floats.length = idx.dims) :
    ∃ st2 : HostState,
      hostUpdate st k v = (.value (), st2) ∧
      hostGetItemVector st2 k = (.value (some v.floats), st2) := by
  have hraw : getRawVector v = .ok (v.floats, v.byteLength / 4) := by
    simp [getRawVector, hne, hal]
  have htake : v.floats.take idx.dims = v.floats := by
    rw [← hfl, List.take_length]
  set idx1 := (match idx.remove k with | .ok j => j | .error _ => idx) with hidx1
  have hl1 : idx1.lookup k = none := by
    rw [hidx1]; exact lookup_forceRemove idx k
  have hadd : idx1.add k v.floats =
      .ok { idx1 with entries := idx1.entries ++ [(k, v.floats)] } := by
    unfold IndexState.add
    simp [hl1]
  refine Exists.intro
    { st with index := some { idx1 with entries := idx1.entries ++ [(k, v.floats)] } }
    ⟨?_, ?_⟩
  · unfold hostUpdate
    rw [hraw]
    simp only [hidx, hlen, ne_eq, not_true_eq_false, if_false, ite_false]
    rw [← hidx1, htake, hadd]
  · unfold hostGetItemVector
    simp only []
    rw [lookup_add_self idx1 k v.floats _ hadd]

/-- C6 witness: key 2 absent from the empty 4-dimensional index. -/
theorem C6_update_get_witness :
    exVec4.floats.length = exIdx4.dims ∧
    (∃ st2 : HostState,
      hostUpdate exLive4 2 exVec4 = (.value (), st2) ∧
      hostGetItemVector st2 2 = (.value (some exVec4.floats), st2)) :=
  ⟨rfl, C6_update_get exLive4 exIdx4 rfl 2 exVec4 (by decide) (by decide) rfl rfl⟩

/-- The `addBatch` worker loop, when the first failing insertion is at
relative position `r`: the already-inserted prefix stays, the error message
names the absolute loop index, `isIndexing` is cleared, and
`lastResult.duration`/`count` are left alone. -/
theorem batchWorkerGo_fail (t : BatchTask) :
    ∀ (rem : List Key) (r i : Nat) (st : HostState) (idx idxI : IndexState),
      st.index = some idx →
      idx.addAll ((tItems t i rem).take r) = .ok idxI →
      r < rem.length →
      (idxI.lookup (rem.getD r 0)).isSome = true →
      batchWorkerGo t st i rem =
        { st with
            index := some idxI,
            currentCount := st.currentCount + r,
            lastResult := { st.lastResult with
              error := "Error adding at index " ++ toString (i + r) },
            isIndexing := false } := by
  intro rem
  induction rem with
  | nil =>
    intro r i st idx idxI _ _ hr _
    exact absurd hr (by simp)
  | cons k rest ih =>
    intro r i st idx idxI hidx hpre hr hfail
    obtain ⟨sIdx, sBusy, sCur, sTot, sQ, sLast⟩ := st
    simp only at hidx
    subst hidx
    match r with
    | 0 =>
      simp only [List.take_zero, IndexState.addAll, Except.ok.injEq] at hpre
      subst hpre
      have hk : (k :: rest).getD 0 0 = k := rfl
      rw [hk] at hfail
      have haddf : idx.add k ((t.vectors.drop (i * t.dims)).take t.dims) =
          .error "duplicate key" := by
        unfold IndexState.add
        simp [hfail]
      simp [batchWorkerGo, haddf]
    | r' + 1 =>
      have hstep : tItems t i (k :: rest) =
          (k, (t.vectors.drop (i * t.dims)).take t.dims) ::
            tItems t (i + 1) rest := rfl
      rw [hstep, List.take_succ_cons] at hpre
      unfold IndexState.addAll at hpre
      cases hadd : idx.add k ((t.vectors.drop (i * t.dims)).take t.dims) with
      | error e => rw [hadd] at hpre; cases hpre
      | ok idxm =>
        rw [hadd] at hpre
        have hr2 : r' < rest.length := by
          simpa [Nat.succ_lt_succ_iff] using hr
        have hfail2 : (idxI.lookup (rest.getD r' 0)).isSome = true := by
          simpa [List.getD_cons_succ] using hfail
        have hrec := ih r' (i + 1)
          { index := some idxm, isIndexing := sBusy, currentCount := sCur + 1,
            totalCount := sTot, quantized := sQ, lastResult := sLast }
          idxm idxI rfl hpre hr2 hfail2
        simp only [batchWorkerGo, hadd]
        rw [hrec]
        rw [show i + 1 + r' = i + (r' + 1) from by omega,
            show sCur + 1 + r' = sCur + (r' + 1) from by omega]

/-- C10: when the background `addBatch` worker's insertion fails at item
`i` (a duplicate key), the items at positions `0..i-1` remain in the index
— the batch is not rolled back — the error message
`"Error adding at index i"` is recorded in `lastResult.error`, and
`isIndexing` becomes false (while `lastResult.duration` and `count` keep
their previous values). -/
theorem C10_batch_failure (t : BatchTask) (st : HostState)
    (idx idxI : IndexState) (i : Nat) (hidx : st.index = some idx)
    (hi : i < t.keys.length)
    (hpre : idx.addAll (t.items.take i) = .ok idxI)
    (hfail : (idxI.lookup (t.keys.getD i 0)).isSome = true) :
    batchWorker t st =
      { st with
          index := some idxI,
          currentCount := st.currentCount + i,
          lastResult := { st.lastResult with
            error := "Error adding at index " ++ toString i },
          isIndexing := false } ∧
    ∀ p ∈ t.items.take i, idxI.lookup p.1 = some p.2 := by
  constructor
  · have hpre2 : idx.addAll ((tItems t 0 t.keys).take i) = .ok idxI := hpre
    have h := batchWorkerGo_fail t t.keys i 0 st idx idxI hidx hpre2 hi hfail
    simpa [batchWorker, Nat.zero_add] using h
  · exact addAll_lookup _ idx idxI hpre

/-- C10 witness: a two-item batch whose second key repeats the first in a
1-dimensional index — the first item stays, the error names index 1. -/
theorem C10_batch_failure_witness :
    exLive1.index = some exIdx1 ∧
    batchWorker exBatchDup exLive1 =
      { index := some exIdx1Five, isIndexing := false, currentCount := 1,
        totalCount := 0, quantized := false,
        lastResult := { duration := 0, count := 0,
                        error := "Error adding at index 1" } } :=
  ⟨rfl,
   (C10_batch_failure exBatchDup exLive1 exIdx1 exIdx1Five 1 rfl (by decide)
      rfl rfl).1⟩

/-- `loadChunks` unfolds one step at the front. -/
theorem loadChunks_succ (vecData : List F32) (d i fuel : Nat) :
    loadChunks vecData d i (fuel + 1) =
      (Int.ofNat i, (vecData.drop (i * d)).take d) ::
        loadChunks vecData d (i + 1) fuel := by
  unfold loadChunks
  rw [List.range_succ_eq_map, List.map_cons, List.map_map]
  refine congrArg₂ _ (by simp) ?_
  apply List.map_congr_left
  intro r _
  simp only [Function.comp]
  rw [show i + 1 + r = i + (r + 1) from by omega]

/-- A successful `add` of key `k'` leaves the binding of any other key
unchanged. -/
theorem lookup_add_of_ne (idx : IndexState) (k' : Key) (v' : List F32)
    (idx2 : IndexState) (h : idx.add k' v' = .ok idx2) (k : Key)
    (hne : k' ≠ k) : idx2.lookup k = idx.lookup k := by
  unfold IndexState.add at h
  by_cases hs : (idx.lookup k').isSome
  · simp [hs] at h
  · simp only [hs, Bool.false_eq_true, if_false, Except.ok.injEq] at h
    subst h
    unfold IndexState.lookup
    have h2 : (k' == k) = false := by simp [hne]
    simp [List.find?_append, List.find?, h2]

/-- The `loadVectorsFromFile` worker loop over fresh keys `i, i+1, ...`:
every item is inserted, the progress counter advances once per item, and
the epilogue records a successful `lastResult` and clears `isIndexing`. -/
theorem loadWorkerGo_spec (d total : Nat) (vecData : List F32) :
    ∀ (fuel i : Nat) (st : HostState) (idx : IndexState),
      st.index = some idx →
      (∀ j : Nat, i ≤ j → j < i + fuel → idx.lookup (Int.ofNat j) = none) →
      loadWorkerGo d total vecData st i fuel =
        { st with
            index := some { idx with entries := idx.entries ++ loadChunks vecData d i fuel },
            currentCount := st.currentCount + fuel,
            lastResult := { duration := 0, count := total, error := "" },
            isIndexing := false } := by
  intro fuel
  induction fuel with
  | zero =>
    intro i st idx hidx _
    obtain ⟨sIdx, sBusy, sCur, sTot, sQ, sLast⟩ := st
    simp only at hidx
    subst hidx
    simp [loadWorkerGo, loadChunks]
  | succ fuel ih =>
    intro i st idx hidx hfresh
    obtain ⟨sIdx, sBusy, sCur, sTot, sQ, sLast⟩ := st
    simp only at hidx
    subst hidx
    have hnone : idx.lookup (Int.ofNat i) = none := hfresh i le_rfl (by omega)
    have hadd : idx.add (Int.ofNat i) ((vecData.drop (i * d)).take d) =
        .ok { idx with entries := idx.entries ++ [(Int.ofNat i, (vecData.drop (i * d)).take d)] } := by
      unfold IndexState.add
      rw [hnone]
      simp
    have hfresh2 : ∀ j : Nat, i + 1 ≤ j → j < (i + 1) + fuel →
        ({ idx with entries := idx.entries ++ [(Int.ofNat i, (vecData.drop (i * d)).take d)] } : IndexState).lookup (Int.ofNat j) = none := by
      intro j hj1 hj2
      have hne : Int.ofNat i ≠ Int.ofNat j := by
        intro heq
        have h3 : i = j := Int.ofNat.inj heq
        omega
      rw [lookup_add_of_ne idx (Int.ofNat i) ((vecData.drop (i * d)).take d) _ hadd (Int.ofNat j) hne]
      exact hfresh j (by omega) (by omega)
    have hrec := ih (i + 1)
      { index := some { idx with entries := idx.entries ++ [(Int.ofNat i, (vecData.drop (i * d)).take d)] },
        isIndexing := sBusy, currentCount := sCur + 1, totalCount := sTot,
        quantized := sQ, lastResult := sLast }
      { idx with entries := idx.entries ++ [(Int.ofNat i, (vecData.drop (i * d)).take d)] }
      rfl hfresh2
    simp only [loadWorkerGo, hadd]
    rw [hrec, loadChunks_succ]
    simp only [HostState.mk.injEq, IndexState.mk.injEq, Option.some.injEq,
      true_and, and_true]
    refine ⟨?_, by omega⟩
    rw [List.append_assoc, List.singleton_append]

/-- C7 counterexample: a 6-byte file in a 1-dimensional f32 index
(`D × element_size = 4`, and `6 % 4 ≠ 0`) is not rejected — the loader
succeeds, inserts `⌊6/4⌋ = 1` vector under key 0, and records a successful
`lastResult`. -/
theorem C7_counterexample :
    6 % (1 * 4) ≠ 0 ∧
    runLoadVectorsFromFile exLive1 exPath (some exFile6) =
      (.value (),
       { index := some { dims := 1, entries := [(0, [3])] },
         isIndexing := false, currentCount := 1, totalCount := 1,
         quantized := false,
         lastResult := { duration := 0, count := 1, error := "" } }) :=
  ⟨by decide, rfl⟩

/-- C7 amended: `loadVectorsFromFile` performs no divisibility check on the
file size.  For a non-empty file whose byte size is not a multiple of
`D × 4` (starting from an empty index, with a clean path and no background
task), the operation still succeeds: it inserts `N = ⌊size / (D × 4)⌋`
vectors under keys `0..N-1`, each the next `D`-wide slice of the file's
floats, silently ignoring the trailing bytes, and records a successful
`lastResult` with `count = N`. -/
theorem C7_amended (st : HostState) (idx : IndexState)
    (hidx : st.index = some idx) (hempty : idx.entries = [])
    (hni : st.isIndexing = false) (path pq : List Char)
    (hp : normalizePath path = .ok pq) (f : FileData) (hsz : f.byteSize ≠ 0)
    (N : Nat) (hN : N = f.byteSize / (idx.dims * 4))
    (hmod : f.byteSize % (idx.dims * 4) ≠ 0) :
    runLoadVectorsFromFile st path (some f) =
      (.value (),
       { st with
           index := some { idx with entries := (List.range N).map (fun r =>
             (Int.ofNat r, (f.floats.drop (r * idx.dims)).take idx.dims)) },
           currentCount := N,
           totalCount := N,
           lastResult := { duration := 0, count := N, error := "" },
           isIndexing := false }) := by
  subst hN
  obtain ⟨sIdx, sBusy, sCur, sTot, sQ, sLast⟩ := st
  simp only at hidx hni
  subst hidx
  subst hni
  have hfresh : ∀ j : Nat, 0 ≤ j → j < 0 + f.byteSize / (idx.dims * 4) →
      idx.lookup (Int.ofNat j) = none := by
    intro j _ _
    unfold IndexState.lookup
    rw [hempty]
    rfl
  have hgo := loadWorkerGo_spec idx.dims (f.byteSize / (idx.dims * 4))
    (f.floats.take (f.byteSize / (idx.dims * 4) * idx.dims))
    (f.byteSize / (idx.dims * 4)) 0
    ⟨some idx, true, 0, f.byteSize / (idx.dims * 4), sQ, sLast⟩
    idx rfl hfresh
  have hchunks : loadChunks
      (f.floats.take (f.byteSize / (idx.dims * 4) * idx.dims)) idx.dims 0
      (f.byteSize / (idx.dims * 4)) =
      (List.range (f.byteSize / (idx.dims * 4))).map (fun r =>
        (Int.ofNat r, (f.floats.drop (r * idx.dims)).take idx.dims)) := by
    unfold loadChunks
    apply List.map_congr_left
    intro r hr
    rw [List.mem_range] at hr
    have h1 : r * idx.dims + idx.dims ≤
        f.byteSize / (idx.dims * 4) * idx.dims := by
      have h2 : (r + 1) * idx.dims ≤
          f.byteSize / (idx.dims * 4) * idx.dims :=
        Nat.mul_le_mul_right _ (by omega)
      calc r * idx.dims + idx.dims = (r + 1) * idx.dims := by
            rw [Nat.succ_mul]
        _ ≤ _ := h2
    have h3 : idx.dims ≤
        f.byteSize / (idx.dims * 4) * idx.dims - r * idx.dims := by
      generalize f.byteSize / (idx.dims * 4) * idx.dims = b at h1 ⊢
      generalize r * idx.dims = a at h1 ⊢
      omega
    simp only [Nat.zero_add]
    rw [List.drop_take, List.take_take, Nat.min_eq_left h3]
  simp only [runLoadVectorsFromFile, hostLoadVectorsSync, hp]
  simp only [Bool.false_eq_true, if_false, ite_false]
  rw [if_neg hsz]
  simp only [loadWorker]
  rw [hgo, hempty, List.nil_append, hchunks]
  simp

/-- C7 amended witness: the 6-byte file over the empty 1-dimensional
index. -/
theorem C7_amended_witness :
    exFile6.byteSize % (exIdx1.dims * 4) ≠ 0 ∧
    runLoadVectorsFromFile exLive1 exPath (some exFile6) =
      (.value (),
       { index := some { dims := 1, entries := [(0, [3])] },
         isIndexing := false, currentCount := 1, totalCount := 1,
         quantized := false,
         lastResult := { duration := 0, count := 1, error := "" } }) :=
  ⟨by decide,
   C7_amended exLive1 exIdx1 rfl rfl rfl exPath exPath rfl exFile6 (by decide)
     1 (by decide) (by decide)⟩

/-- The loop counters of `jaccard_f32` are the match counts over the zipped
inputs, as exact rationals. -/
theorem jaccardCounts_eq_countP (a : List F32) :
    ∀ b : List F32,
      jaccardCounts a b =
        ((((a.zip b).countP fun p => decide (1/2 < p.1 ∧ 1/2 < p.2)) : F32),
         (((a.zip b).countP fun p => decide (1/2 < p.1 ∨ 1/2 < p.2)) : F32)) := by
  induction a with
  | nil => intro b; cases b <;> simp [jaccardCounts]
  | cons x xs ih =>
    intro b
    cases b with
    | nil => simp [jaccardCounts]
    | cons y ys =>
      simp only [jaccardCounts, ih ys, List.zip_cons_cons, List.countP_cons,
        decide_eq_true_eq, Prod.mk.injEq]
      constructor <;> split_ifs with h <;> push_cast <;> ring

/-- Counting matching positions with a `Finset.range` filter equals
counting matching pairs of the zipped lists. -/
theorem card_filter_eq_countP_zip (P : F32 → F32 → Prop)
    [instP : ∀ x y, Decidable (P x y)] :
    ∀ (n : Nat) (a b : List F32), a.length = n → b.length = n →
      ((Finset.range n).filter (fun i => P (a.getD i 0) (b.getD i 0))).card
        = (a.zip b).countP (fun q => decide (P q.1 q.2)) := by
  intro n
  induction n with
  | zero =>
    intro a b ha hb
    rw [List.length_eq_zero] at ha hb
    subst ha
    subst hb
    simp
  | succ n ih =>
    intro a b ha hb
    cases a with
    | nil => simp at ha
    | cons x xs =>
      cases b with
      | nil => simp at hb
      | cons y ys =>
        have hxs : xs.length = n := by simpa using ha
        have hys : ys.length = n := by simpa using hb
        rw [Finset.card_filter, Finset.sum_range_succ']
        simp only [List.getD_cons_succ, List.getD_cons_zero]
        rw [← Finset.card_filter, ih xs ys hxs hys]
        simp only [List.zip_cons_cons, List.countP_cons]
        by_cases h : P x y <;> simp [h]

/-- C5: `jaccard_f32` returns `1 − |A∩B| / |A∪B|` for the index sets
`A = {i : a_i > 0.5}` and `B = {i : b_i > 0.5}`, and exactly `0.0` when the
two sets are empty (the union is empty exactly when both are).  f32
arithmetic is modelled as exact rational arithmetic. -/
theorem C5_jaccard (a b : List F32) (n : Nat) (ha : a.length = n)
    (hb : b.length = n) :
    jaccard_f32 a b =
      (if ((Finset.range n).filter (fun i => 1/2 < a.getD i 0) ∪
            (Finset.range n).filter (fun i => 1/2 < b.getD i 0)) = ∅ then 0
       else 1 -
         ((((Finset.range n).filter (fun i => 1/2 < a.getD i 0) ∩
            (Finset.range n).filter (fun i => 1/2 < b.getD i 0)).card : F32) /
          (((Finset.range n).filter (fun i => 1/2 < a.getD i 0) ∪
            (Finset.range n).filter (fun i => 1/2 < b.getD i 0)).card : F32))) := by
  have hinter := card_filter_eq_countP_zip (fun x y => 1/2 < x ∧ 1/2 < y)
    n a b ha hb
  have hunion := card_filter_eq_countP_zip (fun x y => 1/2 < x ∨ 1/2 < y)
    n a b ha hb
  rw [← Finset.filter_and, ← Finset.filter_or]
  unfold jaccard_f32
  rw [jaccardCounts_eq_countP]
  simp only [← hinter, ← hunion]
  refine if_congr ?_ rfl rfl
  rw [Nat.cast_eq_zero, Finset.card_eq_zero]

/-- C5 witness: `a = [1, 0]`, `b = [1, 1]` — `A = {0}`, `B = {0, 1}`,
`|A∩B| = 1`, `|A∪B| = 2`, distance `1 − 1/2`. -/
theorem C5_jaccard_witness :
    ([1, 0] : List F32).length = 2 ∧
    jaccard_f32 [1, 0] [1, 1] =
      (if ((Finset.range 2).filter (fun i => 1/2 < ([1, 0] : List F32).getD i 0) ∪
            (Finset.range 2).filter (fun i => 1/2 < ([1, 1] : List F32).getD i 0)) = ∅ then 0
       else 1 -
         ((((Finset.range 2).filter (fun i => 1/2 < ([1, 0] : List F32).getD i 0) ∩
            (Finset.range 2).filter (fun i => 1/2 < ([1, 1] : List F32).getD i 0)).card : F32) /
          (((Finset.range 2).filter (fun i => 1/2 < ([1, 0] : List F32).getD i 0) ∪
            (Finset.range 2).filter (fun i => 1/2 < ([1, 1] : List F32).getD i 0)).card : F32))) :=
  ⟨rfl, C5_jaccard [1, 0] [1, 1] 2 rfl rfl⟩

end ExpoVectorSearch
